import Mathlib

/-!
Verification of the `sc` crate ("Schroedinger cell"): an almost-safe reference
type with a dynamic lifetime, together with the observer-registry example built
on top of it.

Shallow embedding conventions:
* Raw pointers `*const T` are modelled as abstract addresses (`Addr := Nat`);
  dereferencing a pointer is looking the address up in a heap `Heap T`.
* The `Sc<T>` cell is `Cell<Option<*const T>>`, so its contents are an
  `Option Addr` (`ScCell`).
* A `Locker` that has been locked holds a `Dropper`; dropping the `Dropper`
  unconditionally clears the cell.  We track the set of live (locked, not yet
  dropped) lockers as ghost state in `ScWorld`, identifying each guard by a
  serial number.  `Locker.lock` allocates a fresh guard id; `Dropper.drop`
  removes a live guard and forces the cell to empty (`self.sc.0.set(None)`).
* Read-only methods (`Sc::get`, `Sc::map`, `Sc::is_some`, `Sc::is_none`)
  only perform `Cell::get`, which copies the contents; their bodies contain
  no `Cell::set`, which is why their state-transformer forms return the input
  world unchanged.
-/

/-- Abstract addresses standing for raw pointers `*const T`. -/
abbrev Addr : Type := Nat

/-- The single-threaded memory: what value each address currently holds. -/
def Heap (T : Type) : Type := Addr → T

/-- Contents of `Sc<T>`, i.e. of its `Cell<Option<*const T>>` field:
either no pointer (`Empty`) or a pointer to an address (`Bound`). -/
abbrev ScCell : Type := Option Addr

/-- One `Sc` cell together with ghost bookkeeping of its guards: `nextGuard`
is the next fresh guard serial number, `live` lists the guards (locked
lockers) that have been created for this cell and not yet dropped. -/
structure ScWorld where
  cell : ScCell
  nextGuard : Nat
  live : List Nat
  deriving Repr, DecidableEq

/-- `Sc::new`: a fresh cell is `Cell::new(None)`; no locker exists yet. -/
def ScWorld.new : ScWorld :=
  { cell := none, nextGuard := 0, live := [] }

/-- `Locker::lock(&mut self, val, sc)`: stores the address of `val` in the
cell (`sc.0.set(Some(ptr))`) and arms the locker's `Dropper`.  Returns the
new world and the id of the guard just created.  Each locker can be locked
only once (the `'auto` self-borrow), so every lock call uses a fresh guard. -/
def Locker.lock (a : Addr) (w : ScWorld) : ScWorld × Nat :=
  ({ cell := some a, nextGuard := w.nextGuard + 1, live := w.live ++ [w.nextGuard] },
   w.nextGuard)

/-- `Dropper::drop`: when a live guard `g` is dropped it runs
`self.sc.0.set(None)`, unconditionally clearing the cell — regardless of
which guard currently "owns" the binding.  A guard that is not live cannot
be dropped (Rust drops each value exactly once), so that case is a no-op. -/
def Dropper.drop (g : Nat) (w : ScWorld) : ScWorld :=
  if g ∈ w.live then
    { cell := none, nextGuard := w.nextGuard, live := w.live.erase g }
  else
    w

/-- `Sc::new` at the cell level: `Cell::new(None)`. -/
def Sc.new_cell : ScCell := none

/-- `Sc::get`: `self.0.get().map(|ptr| &*ptr)` — copy the stored pointer out
of the cell and, only if one is present, dereference it in the heap. -/
def Sc.get {T : Type} (heap : Heap T) (c : ScCell) : Option T :=
  c.map (fun ptr => heap ptr)

/-- `Sc::map`: `unsafe { self.get().map(f) }`. -/
def Sc.map {T U : Type} (f : T → U) (heap : Heap T) (c : ScCell) : Option U :=
  (Sc.get heap c).map f

/-- `Sc::is_some`: `self.0.get().is_some()`. -/
def Sc.is_some (c : ScCell) : Bool :=
  c.isSome

/-- `Sc::is_none`: `self.0.get().is_none()`. -/
def Sc.is_none (c : ScCell) : Bool :=
  c.isNone

/-- State-transformer form of `Sc::map`: the method body performs a single
`Cell::get` (a copy) and no `Cell::set`, so the world component of the
result is the input world. -/
def Sc.mapOp {T U : Type} (f : T → U) (heap : Heap T) (w : ScWorld) :
    Option U × ScWorld :=
  (Sc.map f heap w.cell, w)

/-- State-transformer form of `Sc::is_some` (only `Cell::get`, no write). -/
def Sc.is_someOp (w : ScWorld) : Bool × ScWorld :=
  (Sc.is_some w.cell, w)

/-- State-transformer form of `Sc::is_none` (only `Cell::get`, no write). -/
def Sc.is_noneOp (w : ScWorld) : Bool × ScWorld :=
  (Sc.is_none w.cell, w)

/-- The cell-mutating operations a client can perform on one cell:
locking a (fresh) locker onto it, or dropping one of its live guards. -/
inductive ScOp where
  | lockOp (a : Addr)
  | dropOp (g : Nat)
  deriving Repr, DecidableEq

/-- Whether an operation is a bind (`Locker::lock`). -/
def ScOp.isLock : ScOp → Bool
  | .lockOp _ => true
  | .dropOp _ => false

/-- Execute one operation on the world. -/
def ScOp.step (w : ScWorld) : ScOp → ScWorld
  | .lockOp a => (Locker.lock a w).1
  | .dropOp g => Dropper.drop g w

/-- Execute a sequence of operations, left to right. -/
def ScOp.run (w : ScWorld) : List ScOp → ScWorld
  | [] => w
  | op :: ops => ScOp.run (ScOp.step w op) ops

/-!
The observer-registry example (`examples/observer/src/main.rs`).

`Visitable` owns `observers : Vec<Sc<Observer>>`; each slot is an `Sc` cell
whose contents we model as a `ScCell = Option Addr`, the address of the
registered `Observer`.  The observer itself (its capability) is obtained by
dereferencing the address in a heap `Addr → C`.
-/

/-- `Visitable::new(observer_count)`: a vector of `observer_count` cells,
each freshly created with `Sc::new()`. -/
def Visitable.new (observer_count : Nat) : List ScCell :=
  List.replicate observer_count Sc.new_cell

/-- `Visitable::register_observer`: scan `self.observers` with
`iter().find(|observer| observer.is_none())`; if a cell with no pointer is
found, `locker.lock(observer, &sc)` binds it and the call returns `Some`.
We return the updated slot vector together with the index of the slot the
new guard governs; `none` when every cell is occupied (the `?` operator). -/
def Visitable.register_observer (a : Addr) :
    List ScCell → Option (List ScCell × Nat)
  | [] => none
  | none :: rest => some (some a :: rest, 0)
  | some b :: rest =>
      (Visitable.register_observer a rest).map
        (fun p => (some b :: p.1, p.2 + 1))

/-- Releasing the guard returned by a successful `register_observer` call:
the locker for slot `i` is dropped, and its `Dropper` clears that slot. -/
def Visitable.release (i : Nat) (regs : List ScCell) : List ScCell :=
  regs.set i none

/-- `Visitable::add_log(log)`: iterate over `self.observers` in order and,
for each cell, run `observer.map(|observer| { ...; observer.notify(log) })`.
We record the trace of capability invocations this loop performs: one entry
`(slot index, capability, message)` per bound cell, in loop order; `map` on
an empty cell invokes nothing. -/
def Visitable.add_log {C M : Type} (heap : Heap C) (log : M) :
    List ScCell → List (Nat × C × M)
  | [] => []
  | none :: rest =>
      (Visitable.add_log heap log rest).map (fun e => (e.1 + 1, e.2))
  | some a :: rest =>
      (0, heap a, log) ::
        (Visitable.add_log heap log rest).map (fun e => (e.1 + 1, e.2))

/-!
`Wrapper<T>` (`SelfBindingContainer`): owns `locker : Locker` and `data : T`.
`Wrapper::lock(this, sc)` runs `this.locker.lock(&this.data, sc)`, so the
cell ends up holding the address of the wrapper's `data` field.  `Deref` and
`DerefMut` expose `data` directly.  We model the configuration of one
wrapper and one cell: `wdata` is the current contents of the `data` field,
`waddr` its address, `cell` the `Sc` cell, `locked` whether the internal
locker holds a guard.
-/

structure WrapperWorld (T : Type) where
  wdata : T
  waddr : Addr
  cell : ScCell
  locked : Bool

/-- `Wrapper::new(data)`: stores `data`, internal locker unlocked
(`Locker::new()`); the external cell is whatever it was. -/
def Wrapper.new {T : Type} (data : T) (a : Addr) (c : ScCell) : WrapperWorld T :=
  { wdata := data, waddr := a, cell := c, locked := false }

/-- The heap of a wrapper configuration: the wrapper's address holds its
current `data`; every other address holds whatever the base heap says. -/
def Wrapper.heap {T : Type} (base : Heap T) (w : WrapperWorld T) : Heap T :=
  fun p => if p = w.waddr then w.wdata else base p

/-- `Wrapper::lock(this, sc)`: `this.locker.lock(&this.data, sc)` — the cell
receives the address of `data`, the guard is stored inside the wrapper. -/
def Wrapper.lock {T : Type} (w : WrapperWorld T) : WrapperWorld T :=
  { w with cell := some w.waddr, locked := true }

/-- `Deref::deref`: `&self.data`, available regardless of binding state. -/
def Wrapper.deref {T : Type} (w : WrapperWorld T) : T :=
  w.wdata

/-- `DerefMut::deref_mut`: `&mut self.data`; a mutation through it replaces
`data` by `g data`, available regardless of binding state. -/
def Wrapper.deref_mut {T : Type} (g : T → T) (w : WrapperWorld T) : WrapperWorld T :=
  { w with wdata := g w.wdata }

/-- Dropping the wrapper drops its `locker` field; if the locker was locked,
its `Dropper` clears the cell. -/
def Wrapper.dropW {T : Type} (w : WrapperWorld T) : WrapperWorld T :=
  if w.locked then { w with cell := none, locked := false } else w

/-- Run a sequence of mutations through `DerefMut` (a read through `Deref`
is the special case of an identity mutation). -/
def Wrapper.runMuts {T : Type} : List (T → T) → WrapperWorld T → WrapperWorld T
  | [], w => w
  | g :: gs, w => Wrapper.runMuts gs (Wrapper.deref_mut g w)

theorem Visitable.register_observer_eq_none_iff (a : Addr) (regs : List ScCell) :
    Visitable.register_observer a regs = none ↔ ∀ c ∈ regs, c.isSome := by
  induction regs with
  | nil => simp [Visitable.register_observer]
  | cons c rest ih =>
    cases c with
    | none => simp [Visitable.register_observer]
    | some b =>
      simp [Visitable.register_observer, Option.map_eq_none', ih]

theorem Visitable.register_observer_first_empty (a : Addr) :
    ∀ (regs : List ScCell) (i : Nat), regs[i]? = some none →
      (∀ j, j < i → regs[j]? ≠ some none) →
      Visitable.register_observer a regs = some (regs.set i (some a), i)
  | [], i, hi, _ => by simp at hi
  | none :: rest, 0, _, _ => by
      simp [Visitable.register_observer]
  | none :: rest, i + 1, _, hmin => by
      exact absurd (by simp) (hmin 0 (Nat.succ_pos i))
  | some b :: rest, 0, hi, _ => by
      simp at hi
  | some b :: rest, i + 1, hi, hmin => by
      have hi' : rest[i]? = some none := by simpa using hi
      have hmin' : ∀ j, j < i → rest[j]? ≠ some none := by
        intro j hj
        have := hmin (j + 1) (Nat.succ_lt_succ hj)
        simpa using this
      have := Visitable.register_observer_first_empty a rest i hi' hmin'
      simp [Visitable.register_observer, this, List.set]

theorem Visitable.register_after_release (a : Addr) (regs : List ScCell)
    (i : Nat) (hfull : ∀ c ∈ regs, c.isSome) (hi : i < regs.length) :
    Visitable.register_observer a (Visitable.release i regs) =
      some (regs.set i (some a), i) := by
  have h1 : (regs.set i none)[i]? = some none :=
    List.getElem?_set_eq_of_lt none hi
  have h2 : ∀ j, j < i → (regs.set i none)[j]? ≠ some none := by
    intro j hj hcontra
    have hne : i ≠ j := Nat.ne_of_gt hj
    rw [List.getElem?_set_ne hne] at hcontra
    have : (none : ScCell) ∈ regs := List.getElem?_mem hcontra
    simpa using hfull none this
  have := Visitable.register_observer_first_empty a (regs.set i none) i h1 h2
  simpa [Visitable.release, List.set_set] using this

theorem Visitable.add_log_pairwise {C M : Type} (heap : Heap C) (log : M) :
    ∀ regs : List ScCell,
      (Visitable.add_log heap log regs).Pairwise (fun e f => e.1 < f.1)
  | [] => by simp [Visitable.add_log]
  | none :: rest => by
      have ih := Visitable.add_log_pairwise heap log rest
      simpa [Visitable.add_log, List.pairwise_map] using ih
  | some a :: rest => by
      have ih := Visitable.add_log_pairwise heap log rest
      refine List.Pairwise.cons ?_ ?_
      · intro e he
        rcases List.mem_map.mp he with ⟨e', _, rfl⟩
        exact Nat.succ_pos e'.1
      · simpa [List.pairwise_map] using ih

theorem Visitable.add_log_mem_of_bound {C M : Type} (heap : Heap C) (log : M) :
    ∀ (regs : List ScCell) (i : Nat) (a : Addr), regs[i]? = some (some a) →
      (i, heap a, log) ∈ Visitable.add_log heap log regs
  | [], i, a, h => by simp at h
  | none :: rest, 0, a, h => by simp at h
  | some b :: rest, 0, a, h => by
      have hb : b = a := by simpa using h
      subst hb
      simp [Visitable.add_log]
  | none :: rest, i + 1, a, h => by
      have := Visitable.add_log_mem_of_bound heap log rest i a (by simpa using h)
      simp only [Visitable.add_log, List.mem_map]
      exact ⟨(i, heap a, log), this, rfl⟩
  | some b :: rest, i + 1, a, h => by
      have := Visitable.add_log_mem_of_bound heap log rest i a (by simpa using h)
      simp only [Visitable.add_log, List.mem_cons, List.mem_map]
      exact Or.inr ⟨(i, heap a, log), this, rfl⟩

theorem Visitable.add_log_sound {C M : Type} (heap : Heap C) (log : M) :
    ∀ regs : List ScCell, ∀ e ∈ Visitable.add_log heap log regs,
      ∃ a : Addr, regs[e.1]? = some (some a) ∧ e.2.1 = heap a ∧ e.2.2 = log
  | [], e, he => by simp [Visitable.add_log] at he
  | none :: rest, e, he => by
      simp only [Visitable.add_log] at he
      rcases List.mem_map.mp he with ⟨e', he', rfl⟩
      rcases Visitable.add_log_sound heap log rest e' he' with ⟨a, ha, hc, hm⟩
      exact ⟨a, by simpa using ha, hc, hm⟩
  | some b :: rest, e, he => by
      simp only [Visitable.add_log, List.mem_cons] at he
      rcases he with h | h
      · subst h
        exact ⟨b, by simp, rfl, rfl⟩
      · rcases List.mem_map.mp h with ⟨e', he', rfl⟩
        rcases Visitable.add_log_sound heap log rest e' he' with ⟨a, ha, hc, hm⟩
        exact ⟨a, by simpa using ha, hc, hm⟩

theorem Wrapper.runMuts_frame {T : Type} :
    ∀ (muts : List (T → T)) (w : WrapperWorld T),
      (Wrapper.runMuts muts w).cell = w.cell ∧
        (Wrapper.runMuts muts w).waddr = w.waddr ∧
        (Wrapper.runMuts muts w).locked = w.locked
  | [], w => ⟨rfl, rfl, rfl⟩
  | g :: gs, w => by
      have ih := Wrapper.runMuts_frame gs (Wrapper.deref_mut g w)
      simpa [Wrapper.runMuts, Wrapper.deref_mut] using ih

theorem ScOp.run_cell_none (ops : List ScOp)
    (hops : ∀ op ∈ ops, op.isLock = false) :
    ∀ w : ScWorld, w.cell = none → (ScOp.run w ops).cell = none := by
  induction ops with
  | nil => intro w hw; simpa [ScOp.run] using hw
  | cons op ops ih =>
    intro w hw
    have hop : op.isLock = false := hops op (List.mem_cons_self op ops)
    have hrest : ∀ op ∈ ops, ScOp.isLock op = false := fun o ho =>
      hops o (List.mem_cons_of_mem op ho)
    cases op with
    | lockOp a => simp [ScOp.isLock] at hop
    | dropOp g =>
      apply ih hrest
      simp only [ScOp.step, Dropper.drop]
      split <;> simp [hw]

/-- Claim C1: destroying a cell's governing guard (running `Dropper::drop`,
which executes `self.sc.0.set(None)`) transitions the cell to empty at once:
`is_some` is `false` and `map` returns `none`, and this persists through any
further sequence of operations that contains no new bind. -/
theorem sc_drop_forces_empty {T U : Type} (w : ScWorld) (g : Nat) (f : T → U)
    (heap : Heap T) (ops : List ScOp)
    (hg : g ∈ w.live) (hops : ∀ op ∈ ops, op.isLock = false) :
    (Dropper.drop g w).cell = none ∧
      Sc.is_some (Dropper.drop g w).cell = false ∧
      Sc.map f heap (Dropper.drop g w).cell = none ∧
      (ScOp.run (Dropper.drop g w) ops).cell = none ∧
      Sc.map f heap (ScOp.run (Dropper.drop g w) ops).cell = none := by
  have hc : (Dropper.drop g w).cell = none := by
    simp [Dropper.drop, hg]
  have hrun : (ScOp.run (Dropper.drop g w) ops).cell = none :=
    ScOp.run_cell_none ops hops _ hc
  refine ⟨hc, ?_, ?_, hrun, ?_⟩ <;>
    simp [hc, hrun, Sc.is_some, Sc.map, Sc.get]

/-- Witness for C1: a cell bound once; dropping its guard (id 0) clears it,
and it stays clear across a later spurious drop. -/
theorem sc_drop_forces_empty_witness :
    0 ∈ ((Locker.lock 4 ScWorld.new).1).live ∧
      (∀ op ∈ [ScOp.dropOp 7], op.isLock = false) ∧
      ((Dropper.drop 0 (Locker.lock 4 ScWorld.new).1).cell = none ∧
        Sc.is_some (Dropper.drop 0 (Locker.lock 4 ScWorld.new).1).cell = false ∧
        Sc.map (fun n : Nat => n + 1) (fun _ => 9)
          (Dropper.drop 0 (Locker.lock 4 ScWorld.new).1).cell = none ∧
        (ScOp.run (Dropper.drop 0 (Locker.lock 4 ScWorld.new).1)
          [ScOp.dropOp 7]).cell = none ∧
        Sc.map (fun n : Nat => n + 1) (fun _ => 9)
          (ScOp.run (Dropper.drop 0 (Locker.lock 4 ScWorld.new).1)
            [ScOp.dropOp 7]).cell = none) :=
  ⟨by decide, by decide,
    sc_drop_forces_empty (Locker.lock 4 ScWorld.new).1 0
      (fun n : Nat => n + 1) (fun _ => 9) [ScOp.dropOp 7]
      (by decide) (by decide)⟩

/-- Claim C2: after `Locker::lock` stores the address of `v`, `Sc::map f`
returns `some (f v)` (so `map id` returns `v`); on an empty cell `map`
returns `none`. -/
theorem sc_lock_then_map {T U : Type} (w : ScWorld) (a : Addr) (v : T)
    (f : T → U) (heap : Heap T) (hv : heap a = v) :
    Sc.map f heap ((Locker.lock a w).1).cell = some (f v) ∧
      Sc.map id heap ((Locker.lock a w).1).cell = some v ∧
      (∀ c : ScCell, Sc.is_none c = true → Sc.map f heap c = none) := by
  refine ⟨?_, ?_, ?_⟩
  · simp [Locker.lock, Sc.map, Sc.get, hv]
  · simp [Locker.lock, Sc.map, Sc.get, hv]
  · intro c hc
    cases c with
    | none => simp [Sc.map, Sc.get]
    | some p => simp [Sc.is_none] at hc

/-- Witness for C2: binding address 0 in a heap where address 0 holds 5. -/
theorem sc_lock_then_map_witness :
    (fun _ : Addr => 5 : Heap Nat) 0 = 5 ∧
      (Sc.map (fun n : Nat => n + 1) (fun _ => 5)
          ((Locker.lock 0 ScWorld.new).1).cell = some 6 ∧
        Sc.map id (fun _ => 5) ((Locker.lock 0 ScWorld.new).1).cell = some 5 ∧
        (∀ c : ScCell, Sc.is_none c = true →
          Sc.map (fun n : Nat => n + 1) (fun _ => 5) c = none)) :=
  ⟨rfl, sc_lock_then_map ScWorld.new 0 5 (fun n => n + 1) (fun _ => 5) rfl⟩

/-- Claim C3: the documented aliasing hazard.  Bind twice on the same cell
(lock yields guard 0, a second lock yields guard 1 and overwrites — last
bind wins), then drop the older guard 0 while guard 1 is still live: the
cell reports empty (`is_none`, `map` returns `none`) even though the newer
guard 1 has not been destroyed. -/
theorem sc_stale_guard_drop_clears_newer_binding {T U : Type} (a1 a2 : Addr)
    (f : T → U) (heap : Heap T) :
    (Locker.lock a1 ScWorld.new).2 ≠
        (Locker.lock a2 (Locker.lock a1 ScWorld.new).1).2 ∧
      ((Locker.lock a2 (Locker.lock a1 ScWorld.new).1).1).cell = some a2 ∧
      (Locker.lock a2 (Locker.lock a1 ScWorld.new).1).2 ∈
        (Dropper.drop (Locker.lock a1 ScWorld.new).2
          (Locker.lock a2 (Locker.lock a1 ScWorld.new).1).1).live ∧
      (Dropper.drop (Locker.lock a1 ScWorld.new).2
          (Locker.lock a2 (Locker.lock a1 ScWorld.new).1).1).cell = none ∧
      Sc.is_none (Dropper.drop (Locker.lock a1 ScWorld.new).2
          (Locker.lock a2 (Locker.lock a1 ScWorld.new).1).1).cell = true ∧
      Sc.map f heap (Dropper.drop (Locker.lock a1 ScWorld.new).2
          (Locker.lock a2 (Locker.lock a1 ScWorld.new).1).1).cell = none := by
  refine ⟨?_, rfl, ?_, ?_, ?_, ?_⟩ <;>
    simp [Locker.lock, Dropper.drop, ScWorld.new, Sc.is_none, Sc.map, Sc.get]

/-- Claim C4: `register_observer` scans the slots in ascending index order
and binds the first empty one, returning its guard (here: the governed slot
index) as present; it returns `none` exactly when no slot is empty; with
every slot of `full` occupied a further registration returns `none`, and
after releasing the guard of slot `k` the next registration succeeds and
reuses exactly that freed slot. -/
theorem register_observer_first_fit (a : Addr) (regs : List ScCell) (i : Nat)
    (hi : regs[i]? = some none) (hmin : ∀ j, j < i → regs[j]? ≠ some none)
    (full : List ScCell) (hfull : ∀ c ∈ full, c.isSome) (k : Nat)
    (hk : k < full.length) :
    Visitable.register_observer a regs = some (regs.set i (some a), i) ∧
      (∀ rs : List ScCell,
        Visitable.register_observer a rs = none ↔ ∀ c ∈ rs, c.isSome) ∧
      Visitable.register_observer a full = none ∧
      Visitable.register_observer a (Visitable.release k full) =
        some (full.set k (some a), k) :=
  ⟨Visitable.register_observer_first_empty a regs i hi hmin,
    fun rs => Visitable.register_observer_eq_none_iff a rs,
    (Visitable.register_observer_eq_none_iff a full).mpr hfull,
    Visitable.register_after_release a full k hfull hk⟩

/-- Witness for C4: a three-slot registry whose first empty slot is slot 1,
and a full two-slot registry whose slot 0 is then released and reused. -/
theorem register_observer_first_fit_witness :
    ([some 3, none, none] : List ScCell)[1]? = some none ∧
      (∀ j, j < 1 → ([some 3, none, none] : List ScCell)[j]? ≠ some none) ∧
      (∀ c ∈ ([some 4, some 5] : List ScCell), c.isSome) ∧
      0 < ([some 4, some 5] : List ScCell).length ∧
      (Visitable.register_observer 9 [some 3, none, none] =
          some (([some 3, none, none] : List ScCell).set 1 (some 9), 1) ∧
        (∀ rs : List ScCell,
          Visitable.register_observer 9 rs = none ↔ ∀ c ∈ rs, c.isSome) ∧
        Visitable.register_observer 9 [some 4, some 5] = none ∧
        Visitable.register_observer 9 (Visitable.release 0 [some 4, some 5]) =
          some (([some 4, some 5] : List ScCell).set 0 (some 9), 0)) :=
  ⟨by decide, by decide, by decide, by decide,
    register_observer_first_fit 9 [some 3, none, none] 1 (by decide)
      (by decide) [some 4, some 5] (by decide) 0 (by decide)⟩

/-- Claim C5: `add_log(log)` invokes the capability of each currently bound
slot exactly once with that message, in strictly ascending slot order, and
invokes nothing for empty slots: the invocation trace has strictly
increasing slot indices (so no slot is visited twice), contains an entry for
every bound slot, and every entry comes from a bound slot, carries that
slot's capability and the message `log`. -/
theorem add_log_notifies_each_bound_once {C M : Type} (heap : Heap C)
    (log : M) (regs : List ScCell) :
    (Visitable.add_log heap log regs).Pairwise (fun e f => e.1 < f.1) ∧
      (∀ (i : Nat) (a : Addr), regs[i]? = some (some a) →
        (i, heap a, log) ∈ Visitable.add_log heap log regs) ∧
      (∀ e ∈ Visitable.add_log heap log regs,
        ∃ a : Addr, regs[e.1]? = some (some a) ∧ e.2.1 = heap a ∧ e.2.2 = log) :=
  ⟨Visitable.add_log_pairwise heap log regs,
    fun i a h => Visitable.add_log_mem_of_bound heap log regs i a h,
    fun e he => Visitable.add_log_sound heap log regs e he⟩

/-- Claim C6: a freshly constructed cell is empty (`is_some` false,
`is_none` true), and a freshly constructed capacity-`n` registry has `n`
cells, all empty. -/
theorem new_cell_and_registry_empty :
    ScWorld.new.cell = none ∧
      Sc.new_cell = none ∧
      Sc.is_some ScWorld.new.cell = false ∧
      Sc.is_none ScWorld.new.cell = true ∧
      (∀ n : Nat, (Visitable.new n).length = n) ∧
      (∀ n : Nat, ∀ c ∈ Visitable.new n, c = none) := by
  refine ⟨rfl, rfl, rfl, rfl, fun n => by simp [Visitable.new], ?_⟩
  intro n c hc
  have := List.eq_of_mem_replicate (by simpa [Visitable.new] using hc)
  simpa [Sc.new_cell] using this

/-- Claim C7: bind, destroy the guard, bind a second value: the resulting
cell is observationally identical (same contents, `is_some`, `is_none` and
`map` results) to binding the second value on a freshly constructed cell —
no residual state from the first binding, whatever world the cell was in. -/
theorem rebind_after_drop_like_fresh {T U : Type} (w : ScWorld)
    (a1 a2 : Addr) (f : T → U) (heap : Heap T) :
    ((Locker.lock a2 (Dropper.drop (Locker.lock a1 w).2
        (Locker.lock a1 w).1)).1).cell =
        ((Locker.lock a2 ScWorld.new).1).cell ∧
      Sc.is_some ((Locker.lock a2 (Dropper.drop (Locker.lock a1 w).2
          (Locker.lock a1 w).1)).1).cell =
        Sc.is_some ((Locker.lock a2 ScWorld.new).1).cell ∧
      Sc.is_none ((Locker.lock a2 (Dropper.drop (Locker.lock a1 w).2
          (Locker.lock a1 w).1)).1).cell =
        Sc.is_none ((Locker.lock a2 ScWorld.new).1).cell ∧
      Sc.map f heap ((Locker.lock a2 (Dropper.drop (Locker.lock a1 w).2
          (Locker.lock a1 w).1)).1).cell =
        Sc.map f heap ((Locker.lock a2 ScWorld.new).1).cell := by
  refine ⟨rfl, rfl, rfl, rfl⟩

/-- Claim C8: after `Wrapper::lock` the cell reports bound and `Sc::map`
resolves to the wrapper's internal value — and keeps doing so across any
sequence of mutations through `DerefMut` (lifetime of the container);
dropping the wrapper clears the cell back to empty; `Deref`/`DerefMut`
access the wrapped value both before the bind and while bound. -/
theorem wrapper_lock_binds_data {T U : Type} (w : WrapperWorld T)
    (base : Heap T) (f : T → U) (g : T → T) (muts : List (T → T)) :
    Sc.is_some (Wrapper.runMuts muts (Wrapper.lock w)).cell = true ∧
      Sc.map f (Wrapper.heap base (Wrapper.runMuts muts (Wrapper.lock w)))
          (Wrapper.runMuts muts (Wrapper.lock w)).cell =
        some (f (Wrapper.runMuts muts (Wrapper.lock w)).wdata) ∧
      (Wrapper.dropW (Wrapper.runMuts muts (Wrapper.lock w))).cell = none ∧
      Wrapper.deref (Wrapper.runMuts muts (Wrapper.lock w)) =
        (Wrapper.runMuts muts (Wrapper.lock w)).wdata ∧
      (Wrapper.deref_mut g (Wrapper.runMuts muts (Wrapper.lock w))).wdata =
        g (Wrapper.runMuts muts (Wrapper.lock w)).wdata ∧
      Wrapper.deref w = w.wdata ∧
      (Wrapper.deref_mut g w).wdata = g w.wdata := by
  obtain ⟨hc, ha, hl⟩ := Wrapper.runMuts_frame muts (Wrapper.lock w)
  have hcell : (Wrapper.runMuts muts (Wrapper.lock w)).cell =
      some (Wrapper.runMuts muts (Wrapper.lock w)).waddr := by
    rw [hc, ha]; rfl
  refine ⟨?_, ?_, ?_, rfl, rfl, rfl, rfl⟩
  · simp [hcell, Sc.is_some]
  · simp [hcell, Sc.map, Sc.get, Wrapper.heap]
  · have hlt : (Wrapper.runMuts muts (Wrapper.lock w)).locked = true := by
      rw [hl]; rfl
    simp [Wrapper.dropW, hlt]

/-- Claim C9: absence is an absent result, never a panic: `Sc::map` on an
empty cell returns `none` for every heap (the stored pointer is never
dereferenced — the result does not depend on memory at all), and
`register_observer` on a registry with no empty slot returns `none`.  All
modelled operations are total functions. -/
theorem absence_is_none_never_panic {T U : Type} (f : T → U)
    (full : List ScCell) (a : Addr) (hfull : ∀ c ∈ full, c.isSome) :
    (∀ heap : Heap T, Sc.map f heap none = none) ∧
      (∀ heap heap' : Heap T, Sc.map f heap none = Sc.map f heap' none) ∧
      Visitable.register_observer a full = none :=
  ⟨fun _ => rfl, fun _ _ => rfl,
    (Visitable.register_observer_eq_none_iff a full).mpr hfull⟩

/-- Witness for C9: a full one-slot registry rejects a new registration and
`map` on an empty cell is `none` for every heap. -/
theorem absence_is_none_never_panic_witness :
    (∀ c ∈ ([some 2] : List ScCell), c.isSome) ∧
      ((∀ heap : Heap Nat, Sc.map (fun n : Nat => n) heap none = none) ∧
        (∀ heap heap' : Heap Nat,
          Sc.map (fun n : Nat => n) heap none =
            Sc.map (fun n : Nat => n) heap' none) ∧
        Visitable.register_observer 0 [some 2] = none) :=
  ⟨by decide,
    absence_is_none_never_panic (fun n : Nat => n) [some 2] 0 (by decide)⟩

/-- Claim C10: the read-only observations `Sc::map`, `Sc::is_some` and
`Sc::is_none` only perform `Cell::get` (a copy of the contents), so as state
transformers they return the world — in particular the stored binding —
unchanged, while producing the value the pure read computes. -/
theorem reads_leave_cell_unchanged {T U : Type} (f : T → U) (heap : Heap T)
    (w : ScWorld) :
    (Sc.mapOp f heap w).2 = w ∧
      (Sc.is_someOp w).2 = w ∧
      (Sc.is_noneOp w).2 = w ∧
      (Sc.mapOp f heap w).2.cell = w.cell ∧
      (Sc.mapOp f heap w).1 = Sc.map f heap w.cell ∧
      (Sc.is_someOp w).1 = Sc.is_some w.cell ∧
      (Sc.is_noneOp w).1 = Sc.is_none w.cell :=
  ⟨rfl, rfl, rfl, rfl, rfl, rfl, rfl⟩
